import Mathlib

/-!
# Verification of the YTupload scheduling and row-processing pipeline

A shallow embedding of `src/index.js` (a batch video uploader that reads a
spreadsheet, matches each row's identifier to a media file, computes a
scheduled `publishAt` timestamp, uploads (or simulates), and writes a status
string back into the row).

Modelling conventions:
* Instants are epoch milliseconds as `Int`; minute/count quantities are `Nat`.
* `Date.prototype.toISOString` is abstracted as a function `iso : Int → String`
  threaded through the pipeline; the scheduling arithmetic itself is exact
  integer millisecond arithmetic, as in the source.
* The directory listing (`fs.readdirSync`) is an `Option (List String)`:
  `none` models an I/O failure (the `catch` branch of `findFileByBase`).
* The YouTube publish call and the wall clock are external; each data row
  carries the publisher's response and the clock reading it would observe.
* String primitives (`trim`, `toLowerCase`, `includes`, `startsWith`,
  `path.parse(f).name`, `path.basename`) are re-implemented on `List Char`
  so everything is executable and kernel-decidable.  `toLowerCase` is
  modelled on ASCII (the labels involved are ASCII or CJK, and CJK has no
  case); `trim` strips the usual ASCII whitespace.
-/

/-! ## String primitives -/

/-- ASCII/common whitespace, as stripped by JavaScript `String.prototype.trim`. -/
def isWs (c : Char) : Bool :=
  c == ' ' || c == '\t' || c == '\n' || c == '\r'

/-- Strip leading and trailing whitespace from a character list. -/
def trimList (l : List Char) : List Char :=
  ((l.dropWhile isWs).reverse.dropWhile isWs).reverse

/-- JavaScript `s.trim()`. -/
def strTrim (s : String) : String := ⟨trimList s.data⟩

/-- ASCII lowercase of a character (JavaScript `toLowerCase` restricted to the
alphabets that appear in the headers this program handles). -/
def lowerChar (c : Char) : Char :=
  if 65 ≤ c.toNat ∧ c.toNat ≤ 90 then Char.ofNat (c.toNat + 32) else c

/-- JavaScript `s.toLowerCase()` (ASCII model). -/
def strLower (s : String) : String := ⟨s.data.map lowerChar⟩

/-- `normalizeHeader` from `src/index.js` (lines 92–95): `toString().trim().toLowerCase()`.
The `!h && h !== 0` guard returns `''`, which coincides with trimming and
lowercasing the empty string, so it needs no separate case for string cells. -/
def normalizeHeader (h : String) : String := strLower (strTrim h)

/-- `pat` is a prefix of the second list (character-exact). -/
def listStartsWith : List Char → List Char → Bool
  | [], _ => true
  | _ :: _, [] => false
  | p :: ps, c :: cs => p == c && listStartsWith ps cs

/-- The second list occurs as a contiguous substring of the first
(JavaScript `String.prototype.includes`). -/
def listContains : List Char → List Char → Bool
  | [], pat => pat.isEmpty
  | c :: cs, pat => listStartsWith pat (c :: cs) || listContains cs pat

/-- JavaScript `h.includes(pat)`. -/
def containsSubstr (h pat : String) : Bool := listContains h.data pat.data

/-- JavaScript `s.startsWith(pre)`. -/
def strStartsWith (s pre : String) : Bool := listStartsWith pre.data s.data

/-! ## `path` primitives -/

/-- Index of the last `'.'` in a character list, if any. -/
def lastDotIdx : List Char → Option Nat
  | [] => none
  | c :: cs =>
    match lastDotIdx cs with
    | some i => some (i + 1)
    | none => if c == '.' then some 0 else none

/-- Node's `path.parse(f).name` for a plain file name `f` (no directory
separators, as returned by `readdirSync`): the name with the extension after
the last dot removed, except that a dot in the first position (dot-files)
does not start an extension. -/
def parseName (f : String) : String :=
  match lastDotIdx f.data with
  | some i => if 0 < i then ⟨f.data.take i⟩ else f
  | none => f

/-- The suffix after the last `'/'`. -/
def afterLastSlash : List Char → List Char
  | [] => []
  | c :: cs => if c == '/' || cs.contains '/' then afterLastSlash cs else c :: cs

/-- Node's `path.basename`. -/
def pathBasename (p : String) : String := ⟨afterLastSlash p.data⟩

/-- Node's `path.join(folder, file)` for the simple folder/file case. -/
def pathJoin (a b : String) : String := a ++ "/" ++ b

/-! ## Media Matcher: `findFileByBase` (src/index.js lines 97–108)

```js
function findFileByBase(folderPath, baseName) {
  try {
    const files = fs.readdirSync(folderPath);
    const exact = files.find(f => path.parse(f).name === baseName);
    if (exact) return path.join(folderPath, exact);
    const starts = files.find(f => path.parse(f).name.startsWith(baseName));
    if (starts) return path.join(folderPath, starts);
    return null;
  } catch (e) { return null; }
}
```
`listing = none` models `readdirSync` throwing (folder missing, permissions). -/

def findFileByBase (folderPath : String) (listing : Option (List String))
    (baseName : String) : Option String :=
  match listing with
  | none => none
  | some files =>
    match files.find? (fun f => parseName f == baseName) with
    | some exact => some (pathJoin folderPath exact)
    | none =>
      match files.find? (fun f => strStartsWith (parseName f) baseName) with
      | some starts => some (pathJoin folderPath starts)
      | none => none

/-! ## Schedule Planner: `computePublishAtForIndex` (src/index.js lines 160–179) -/

/-- The three scheduling strategies (`scheduleOptions.type` in the source).
For `daily`, the source parses `startDate`/`timeOfDay` and builds a local-time
`Date`; `base` here is that base instant's epoch milliseconds (`base.getTime()`),
taken as given since wall-clock-to-epoch conversion is environment state. -/
inductive ScheduleOptions where
  | none
  | start_interval (startAt : Int) (intervalMins : Nat)
  | daily (base : Int) (perDay : Nat) (spacingMins : Nat)
deriving DecidableEq, Repr

/-- `scheduleOptions && scheduleOptions.type !== 'none'`. -/
def ScheduleOptions.isScheduled : ScheduleOptions → Bool
  | .none => false
  | _ => true

/-- The epoch-millisecond value `dt.getTime()` computed by
`computePublishAtForIndex`, `none` when the function returns `null`. -/
def computePublishAtMs (scheduledIndex : Nat) : ScheduleOptions → Option Int
  | .none => Option.none
  | .start_interval startAt intervalMins =>
    some (startAt + (scheduledIndex * intervalMins * 60 * 1000 : Nat))
  | .daily base perDay spacingMins =>
    let dayOffset := scheduledIndex / perDay
    let indexInDay := scheduledIndex % perDay
    some (base + (dayOffset * 24 * 60 * 60 * 1000 : Nat) + (indexInDay * spacingMins * 60 * 1000 : Nat))

/-- `computePublishAtForIndex(scheduledIndex, scheduleOptions)`: the ISO string
of the computed instant, `none` for the `'none'` strategy.  `iso` abstracts
`Date.prototype.toISOString`. -/
def computePublishAtForIndex (iso : Int → String) (scheduledIndex : Nat)
    (o : ScheduleOptions) : Option String :=
  (computePublishAtMs scheduledIndex o).map iso

example : computePublishAtMs 3 (.start_interval 1000 10) = some 1801000 := by decide
example : computePublishAtMs 5 (.daily 0 2 7) = some (2 * 86400000 + 420000) := by decide

/-! ## Job Pipeline: the row loop of `main` (src/index.js lines 336–408)

Per iteration the source reads the identifier cell, skips blank identifiers,
resolves the media file, computes `publishAt` from the current
`scheduledCount`, then either simulates (when uploading is disabled) or calls
the YouTube API, writes a status string into the `Uploaded` column, and
increments `scheduledCount` only on a simulated or successful scheduled
upload.  Title/description/tag composition (lines 354–364) is omitted from
the model: it is pure string assembly fed to the publisher, affecting neither
the control flow, the slot counter, nor the status strings. -/

/-- The external publisher's response for one row's upload attempt
(`youtube.videos.insert` resolving with an id, or throwing).  `err` carries
the already-resolved message string (the source substitutes `'upload failed'`
when the thrown error has no message). -/
inductive PubResult where
  | ok (videoId : String)
  | err (message : String)
deriving DecidableEq, Repr

def PubResult.isOk : PubResult → Bool
  | .ok _ => true
  | .err _ => false

/-- Terminal classification of one data row (§3 RowOutcome of the spec). -/
inductive RowOutcome where
  | skipped
  | missingFile
  | simulated (timestamp : String) (fileName : String) (publishAt : Option String)
  | uploaded (timestamp : String) (videoId : String) (publishAt : Option String)
  | failed (message : String)
deriving DecidableEq, Repr

/-- `simulated` or `uploaded` — the outcomes after which the source increments
`scheduledCount` (when a schedule is active). -/
def RowOutcome.isSuccess : RowOutcome → Bool
  | .simulated _ _ _ => true
  | .uploaded _ _ _ => true
  | _ => false

/-- Run-constant context of the row loop. -/
structure Env where
  idColIndex : Nat
  uploadedColIndex : Nat
  folderPath : String
  listing : Option (List String)
  doUpload : Bool
  schedule : ScheduleOptions
  iso : Int → String

/-- One data row together with the external world it would observe:
the publisher's response were it called, and the clock reading
(`new Date().toISOString()`) taken when its status is stamped. -/
structure RowEnv where
  cells : List String
  pub : PubResult
  now : String

/-- Everything one loop iteration produces: the abstract outcome, the status
string written to the `Uploaded` column (`none` when the iteration writes
nothing), the `publishAt` it computed (`none` when it never reached the
computation), whether the publisher was invoked, the updated row, and the
value of `scheduledCount` after the iteration. -/
structure StepResult where
  outcome : RowOutcome
  write : Option String
  publishAtUsed : Option (Option String)
  calledPublisher : Bool
  newRow : List String
  countAfter : Nat
deriving DecidableEq, Repr

/-- `row[i]`: JavaScript yields `undefined` past the end, which the loop's
`!idCell` guard treats like the empty string. -/
def getCell (row : List String) (i : Nat) : String := row.getD i ""

/-- `values[r][i] = v`: assigning past the end of a JavaScript array creates
holes, which surface as empty cells when written back; modelled by padding
with `""` up to position `i` and setting it. -/
def setAt (row : List String) (i : Nat) (v : String) : List String :=
  (row ++ List.replicate (i + 1 - row.length) "").set i v

/-- One iteration of the row loop (src/index.js lines 338–408), at current
slot counter `c`. -/
def processRow (env : Env) (c : Nat) (re : RowEnv) : StepResult :=
  let row := re.cells
  let idCell := getCell row env.idColIndex
  if strTrim idCell = "" then
    { outcome := .skipped, write := Option.none, publishAtUsed := Option.none,
      calledPublisher := false, newRow := row, countAfter := c }
  else
    let baseName := strTrim idCell
    match findFileByBase env.folderPath env.listing baseName with
    | Option.none =>
      { outcome := .missingFile, write := some "MISSING FILE",
        publishAtUsed := Option.none, calledPublisher := false,
        newRow := setAt row env.uploadedColIndex "MISSING FILE", countAfter := c }
    | some videoPath =>
      let publishAt := computePublishAtForIndex env.iso c env.schedule
      if !env.doUpload then
        let s := re.now ++ " | SIMULATED | file: " ++ pathBasename videoPath
                   ++ " | publishAt: " ++ publishAt.getD "NOW"
        { outcome := .simulated re.now (pathBasename videoPath) publishAt,
          write := some s, publishAtUsed := some publishAt,
          calledPublisher := false, newRow := setAt row env.uploadedColIndex s,
          countAfter := if env.schedule.isScheduled then c + 1 else c }
      else
        match re.pub with
        | .ok videoId =>
          let s := re.now ++ " | videoId: " ++ videoId
                     ++ " | publishAt: " ++ publishAt.getD "NOW"
          { outcome := .uploaded re.now videoId publishAt,
            write := some s, publishAtUsed := some publishAt,
            calledPublisher := true, newRow := setAt row env.uploadedColIndex s,
            countAfter := if env.schedule.isScheduled then c + 1 else c }
        | .err message =>
          { outcome := .failed message, write := some ("ERROR: " ++ message),
            publishAtUsed := some publishAt, calledPublisher := true,
            newRow := setAt row env.uploadedColIndex ("ERROR: " ++ message),
            countAfter := c }

/-- The whole row loop: step results in row order, threading `scheduledCount`. -/
def runRows (env : Env) (c : Nat) : List RowEnv → List StepResult
  | [] => []
  | re :: rest =>
    let s := processRow env c re
    s :: runRows env s.countAfter rest

/-- The slot counter after processing all rows starting from counter `c`. -/
def countAfterRun (env : Env) (c : Nat) : List RowEnv → Nat
  | [] => c
  | re :: rest => countAfterRun env (processRow env c re).countAfter rest

/-! ## Header Resolver (src/index.js lines 302–324) -/

/-- The `idxMap`, identifier column and status (`Uploaded`) column resolved
from the header row (the source's `idxMap`, `idColIndex`, `uploadedColIndex`). -/
structure FieldIndex where
  seo_title_zh : Option Nat
  seo_title_en : Option Nat
  description_zh : Option Nat
  description_en : Option Nat
  yt_tags : Option Nat
  hashtags : Option Nat
  idColIndex : Nat
  uploadedColIndex : Nat
deriving DecidableEq, Repr

/-- Identifier-column lookup (lines 309–313): exact match on the normalized
user-supplied label, else the first header cell containing `編號` or `id`. -/
def resolveIdColIndex (header : List String) (idLabel : String) : Option Nat :=
  let hs := header.map normalizeHeader
  match hs.findIdx? (fun h => h == normalizeHeader idLabel) with
  | some i => some i
  | Option.none => hs.findIdx? (fun h => containsSubstr h "編號" || containsSubstr h "id")

/-- The Header Resolver (lines 302–324): builds the `FieldIndex` from the
header row, fails (`none`, the fatal abort) when no identifier column is
found, and appends an `Uploaded` column — the returned header — when no
status column exists. -/
def resolveHeader (header : List String) (idLabel : String) :
    Option (FieldIndex × List String) :=
  let hs := header.map normalizeHeader
  let find := fun k => hs.findIdx? (fun h => h == k)
  match resolveIdColIndex header idLabel with
  | Option.none => Option.none
  | some idCol =>
    match hs.findIdx? (fun h => h == "uploaded" || h == "已上傳") with
    | some up =>
      some ({ seo_title_zh := find "seo_title_zh", seo_title_en := find "seo_title_en",
              description_zh := find "description_zh", description_en := find "description_en",
              yt_tags := find "yt_tags", hashtags := find "hashtags",
              idColIndex := idCol, uploadedColIndex := up }, header)
    | Option.none =>
      some ({ seo_title_zh := find "seo_title_zh", seo_title_en := find "seo_title_en",
              description_zh := find "description_zh", description_en := find "description_en",
              yt_tags := find "yt_tags", hashtags := find "hashtags",
              idColIndex := idCol, uploadedColIndex := header.length },
            header ++ ["Uploaded"])

/-! ## The whole run (`main`, src/index.js lines 296–411) -/

/-- Result of a run: the empty-sheet early return (line 297), the fatal
identifier-column abort (line 314, before any row and before any write-back),
or a completed run carrying the flushed matrix (header first) and the
per-row step results. -/
inductive MainResult where
  | emptySheet
  | noIdColumn
  | completed (flushed : List (List String)) (results : List StepResult)
deriving DecidableEq, Repr

/-- The matrix flushed to storage by `writeArrayOfArraysToSheetAndSave`,
when the run reaches it. -/
def MainResult.flushedSheet : MainResult → Option (List (List String))
  | .completed flushed _ => some flushed
  | _ => Option.none

/-- The step results of the rows the run processed. -/
def MainResult.processed : MainResult → List StepResult
  | .completed _ results => results
  | _ => []

/-- The core of `main`: read matrix `values` (row 0 the header), resolve the
header, run the row loop from `scheduledCount = 0`, flush the final matrix.
`pub`/`now` give each data row (0-based position) its external publisher
response and clock reading. -/
def mainRun (idLabel folderPath : String) (listing : Option (List String))
    (doUpload : Bool) (schedule : ScheduleOptions) (iso : Int → String)
    (pub : Nat → PubResult) (now : Nat → String)
    (values : List (List String)) : MainResult :=
  match values with
  | [] => .emptySheet
  | header :: dataRows =>
    match resolveHeader header idLabel with
    | Option.none => .noIdColumn
    | some (fi, header') =>
      let env : Env := { idColIndex := fi.idColIndex,
                         uploadedColIndex := fi.uploadedColIndex,
                         folderPath := folderPath, listing := listing,
                         doUpload := doUpload, schedule := schedule, iso := iso }
      let rowEnvs := dataRows.enum.map (fun p => RowEnv.mk p.2 (pub p.1) (now p.1))
      let results := runRows env 0 rowEnvs
      .completed (header' :: results.map StepResult.newRow) results

/-! ## Derived notions used by the statements -/

/-- Number of rows of a run that end `simulated` or `uploaded` (the rows after
which the source increments `scheduledCount` when a schedule is active). -/
def numSucc (env : Env) (c : Nat) (rows : List RowEnv) : Nat :=
  ((runRows env c rows).filter (fun s => s.outcome.isSuccess)).length

/-- The `publishAt` values handed, in order, to the rows that end
`simulated` or `uploaded`. -/
def successPublishAts (rs : List StepResult) : List (Option String) :=
  rs.filterMap (fun s => if s.outcome.isSuccess then s.publishAtUsed else Option.none)

/-- Modelled from the spec (§3 RowOutcome, amended): the status string an
outcome puts into the row's status cell — `none` for `Skipped`, which the
source only logs to the console. -/
def expectedWrite : RowOutcome → Option String
  | .skipped => Option.none
  | .missingFile => some "MISSING FILE"
  | .simulated ts fn p => some (ts ++ " | SIMULATED | file: " ++ fn ++ " | publishAt: " ++ p.getD "NOW")
  | .uploaded ts vid p => some (ts ++ " | videoId: " ++ vid ++ " | publishAt: " ++ p.getD "NOW")
  | .failed m => some ("ERROR: " ++ m)

/-- A concrete stand-in for `Date.prototype.toISOString` used by witnesses,
mapping the two instants they exercise to their real ISO renderings. -/
def isoTest (n : Int) : String :=
  if n = 0 then "1970-01-01T00:00:00.000Z"
  else if n = 600000 then "1970-01-01T00:10:00.000Z"
  else "1970-01-01T??Z"

/-! ## The shape of a `toISOString` timestamp -/

/-- Character-class pattern of a `Date.prototype.toISOString` output,
`YYYY-MM-DDTHH:MM:SS.mmmZ`. -/
def isoShape : List (Char → Bool) :=
  [Char.isDigit, Char.isDigit, Char.isDigit, Char.isDigit, (· == '-'),
   Char.isDigit, Char.isDigit, (· == '-'), Char.isDigit, Char.isDigit,
   (· == 'T'), Char.isDigit, Char.isDigit, (· == ':'), Char.isDigit,
   Char.isDigit, (· == ':'), Char.isDigit, Char.isDigit, (· == '.'),
   Char.isDigit, Char.isDigit, Char.isDigit, (· == 'Z')]

/-- The character list starts with the given character-class pattern. -/
def matchesShape : List (Char → Bool) → List Char → Bool
  | [], _ => true
  | _ :: _, [] => false
  | p :: ps, c :: cs => p c && matchesShape ps cs

/-- Some position of the character list starts an ISO-8601 timestamp of the
`toISOString` shape. -/
def containsIso : List Char → Bool
  | [] => false
  | c :: cs => matchesShape isoShape (c :: cs) || containsIso cs

example : containsIso "x 1970-01-01T00:10:00.000Z y".data = true := by decide
example : containsIso "MISSING FILE".data = false := by decide

/-! ## Step lemmas about `processRow` -/

/-- A blank (or whitespace) identifier cell short-circuits the iteration:
outcome `skipped`, nothing written, publisher not called, row and counter
untouched. -/
theorem processRow_skipped (env : Env) (c : Nat) (re : RowEnv)
    (h : strTrim (getCell re.cells env.idColIndex) = "") :
    processRow env c re =
      { outcome := .skipped, write := Option.none, publishAtUsed := Option.none,
        calledPublisher := false, newRow := re.cells, countAfter := c } := by
  simp [processRow, h]

/-- The slot counter law of one iteration: it increments exactly after a
`simulated` or `uploaded` outcome under an active schedule. -/
theorem processRow_countAfter (env : Env) (c : Nat) (re : RowEnv) :
    (processRow env c re).countAfter =
      if (processRow env c re).outcome.isSuccess && env.schedule.isScheduled
      then c + 1 else c := by
  by_cases h1 : strTrim (getCell re.cells env.idColIndex) = ""
  · simp [processRow, h1, RowOutcome.isSuccess]
  · cases h2 : findFileByBase env.folderPath env.listing (strTrim (getCell re.cells env.idColIndex)) with
    | none => simp [processRow, h1, h2, RowOutcome.isSuccess]
    | some vp =>
      cases h3 : env.doUpload with
      | false => simp [processRow, h1, h2, h3, RowOutcome.isSuccess]
      | true =>
        cases h4 : re.pub with
        | ok vid => simp [processRow, h1, h2, h3, h4, RowOutcome.isSuccess]
        | err m => simp [processRow, h1, h2, h3, h4, RowOutcome.isSuccess]

/-- A `simulated` or `uploaded` row received the `publishAt` of the incoming
slot counter. -/
theorem processRow_success_pA (env : Env) (c : Nat) (re : RowEnv)
    (h : (processRow env c re).outcome.isSuccess = true) :
    (processRow env c re).publishAtUsed
      = some (computePublishAtForIndex env.iso c env.schedule) := by
  by_cases h1 : strTrim (getCell re.cells env.idColIndex) = ""
  · simp [processRow, h1, RowOutcome.isSuccess] at h
  · cases h2 : findFileByBase env.folderPath env.listing (strTrim (getCell re.cells env.idColIndex)) with
    | none => simp [processRow, h1, h2, RowOutcome.isSuccess] at h
    | some vp =>
      cases h3 : env.doUpload with
      | false => simp [processRow, h1, h2, h3]
      | true =>
        cases h4 : re.pub with
        | ok vid => simp [processRow, h1, h2, h3, h4]
        | err m => simp [processRow, h1, h2, h3, h4, RowOutcome.isSuccess] at h

/-- A failed upload: the `ERROR:` status is written, the row had computed the
`publishAt` of the incoming counter, and the counter is left unchanged. -/
theorem processRow_failed (env : Env) (c : Nat) (re : RowEnv) (m : String)
    (h : (processRow env c re).outcome = .failed m) :
    (processRow env c re).write = some ("ERROR: " ++ m) ∧
    (processRow env c re).publishAtUsed
      = some (computePublishAtForIndex env.iso c env.schedule) ∧
    (processRow env c re).countAfter = c := by
  by_cases h1 : strTrim (getCell re.cells env.idColIndex) = ""
  · simp [processRow, h1] at h
  · cases h2 : findFileByBase env.folderPath env.listing (strTrim (getCell re.cells env.idColIndex)) with
    | none => simp [processRow, h1, h2] at h
    | some vp =>
      cases h3 : env.doUpload with
      | false => simp [processRow, h1, h2, h3] at h
      | true =>
        cases h4 : re.pub with
        | ok vid => simp [processRow, h1, h2, h3, h4] at h
        | err m2 =>
          have h5 : m2 = m := by simpa [processRow, h1, h2, h3, h4] using h
          subst h5
          simp [processRow, h1, h2, h3, h4]

/-! ## Run-level lemmas -/

theorem runRows_nil (env : Env) (c : Nat) : runRows env c [] = [] := rfl

theorem runRows_cons (env : Env) (c : Nat) (re : RowEnv) (rest : List RowEnv) :
    runRows env c (re :: rest)
      = processRow env c re :: runRows env (processRow env c re).countAfter rest := rfl

theorem countAfterRun_cons (env : Env) (c : Nat) (re : RowEnv) (rest : List RowEnv) :
    countAfterRun env c (re :: rest)
      = countAfterRun env (processRow env c re).countAfter rest := rfl

/-- The row loop splits over list concatenation, threading the counter. -/
theorem runRows_append (env : Env) :
    ∀ (l1 l2 : List RowEnv) (c : Nat),
      runRows env c (l1 ++ l2)
        = runRows env c l1 ++ runRows env (countAfterRun env c l1) l2 := by
  intro l1
  induction l1 with
  | nil => intro l2 c; rfl
  | cons re rest ih =>
    intro l2 c
    simp only [List.cons_append, runRows_cons, countAfterRun_cons, ih]

/-- The final counter likewise splits over concatenation. -/
theorem countAfterRun_append (env : Env) :
    ∀ (l1 l2 : List RowEnv) (c : Nat),
      countAfterRun env c (l1 ++ l2)
        = countAfterRun env (countAfterRun env c l1) l2 := by
  intro l1
  induction l1 with
  | nil => intro l2 c; rfl
  | cons re rest ih =>
    intro l2 c
    simp only [List.cons_append, countAfterRun_cons, ih]

/-- Under an active schedule, the run's final counter is the start counter
plus the number of `simulated`/`uploaded` rows, and the `publishAt` values
those rows receive are exactly the publish times of the consecutive slots
`c, c+1, c+2, …` — no slot is ever skipped. -/
theorem run_slots (env : Env) (h : env.schedule.isScheduled = true) :
    ∀ (rows : List RowEnv) (c : Nat),
      countAfterRun env c rows = c + numSucc env c rows ∧
      successPublishAts (runRows env c rows)
        = (List.range' c (numSucc env c rows)).map
            (fun i => computePublishAtForIndex env.iso i env.schedule) := by
  intro rows
  induction rows with
  | nil => intro c; simp [countAfterRun, numSucc, runRows, successPublishAts]
  | cons re rest ih =>
    intro c
    have hc := processRow_countAfter env c re
    rcases hs : (processRow env c re).outcome.isSuccess with _ | _
    · -- not a success: counter unchanged, row contributes no publishAt
      rw [hs, Bool.false_and, if_neg (by simp)] at hc
      have hnum : numSucc env c (re :: rest) = numSucc env c rest := by
        simp only [numSucc, runRows_cons, List.filter_cons, hs, hc,
          Bool.false_eq_true, if_false]
      have htail : countAfterRun env c (re :: rest) = countAfterRun env c rest := by
        rw [countAfterRun_cons, hc]
      refine ⟨?_, ?_⟩
      · rw [htail, hnum]; exact (ih c).1
      · simp only [successPublishAts, runRows_cons, List.filterMap_cons, hs,
          Bool.false_eq_true, if_false, hc, hnum]
        exact (ih c).2
    · -- success: counter increments, row takes slot `c`
      rw [hs, Bool.true_and, h, if_pos rfl] at hc
      have hpa := processRow_success_pA env c re hs
      have hnum : numSucc env c (re :: rest) = numSucc env (c + 1) rest + 1 := by
        simp only [numSucc, runRows_cons, List.filter_cons, hs, hc]
        simp [Nat.add_comm]
      have htail : countAfterRun env c (re :: rest) = countAfterRun env (c + 1) rest := by
        rw [countAfterRun_cons, hc]
      refine ⟨?_, ?_⟩
      · rw [htail, hnum, (ih (c + 1)).1]; omega
      · simp only [successPublishAts, runRows_cons, List.filterMap_cons, hs, if_pos rfl, hpa,
          hc, hnum, List.range'_succ, List.map_cons]
        simp only [if_true]
        exact congrArg (fun l => computePublishAtForIndex env.iso c env.schedule :: l) ((ih (c + 1)).2)

/-! ## Claim C2: FixedInterval exactness -/

/-- C2 — For every `slot ≥ 0` and `FixedInterval(startAt, intervalMinutes ≥ 0)`,
the Schedule Planner returns exactly `startAt + slot × intervalMinutes`
(in exact milliseconds), and successive slots are spaced by exactly
`intervalMinutes` — no drift across repeated calls. -/
theorem fixed_interval_exact (iso : Int → String) (slot : Nat)
    (startAt : Int) (intervalMins : Nat) :
    computePublishAtForIndex iso slot (.start_interval startAt intervalMins)
      = some (iso (startAt + (slot * intervalMins * 60000 : Nat))) ∧
    (computePublishAtMs (slot + 1) (.start_interval startAt intervalMins)).getD 0
      - (computePublishAtMs slot (.start_interval startAt intervalMins)).getD 0
      = (intervalMins * 60000 : Nat) := by
  constructor
  · have harith : slot * intervalMins * 60 * 1000 = slot * intervalMins * 60000 := by ring
    simp [computePublishAtForIndex, computePublishAtMs, harith]
  · simp only [computePublishAtMs, Option.getD_some]
    push_cast
    ring

/-! ## Claim C3: DailyBatches slot arithmetic -/

/-- C3 — For every `slot ≥ 0` and `DailyBatches` configuration with
`perDay > 0`, the Schedule Planner returns the base instant (startDate at
timeOfDay, local wall clock, here its epoch value `base`) plus
`⌊slot / perDay⌋` exact 24-hour days plus `(slot mod perDay) × spacingMinutes`,
as pure duration arithmetic with no timezone reinterpretation. -/
theorem daily_batches_exact (iso : Int → String) (base : Int)
    (perDay spacingMins slot : Nat) (h : 0 < perDay) :
    computePublishAtForIndex iso slot (.daily base perDay spacingMins)
      = some (iso (base + ((slot / perDay) * 86400000 : Nat)
                        + ((slot % perDay) * spacingMins * 60000 : Nat))) := by
  have h1 : slot / perDay * 24 * 60 * 60 * 1000 = slot / perDay * 86400000 := by ring
  have h2 : slot % perDay * spacingMins * 60 * 1000 = slot % perDay * spacingMins * 60000 := by ring
  simp [computePublishAtForIndex, computePublishAtMs, h1, h2]

/-- Witness for C3 at `slot = 5`, `perDay = 2`, `spacing = 3` minutes. -/
theorem daily_batches_exact_witness :
    0 < 2 ∧
    computePublishAtForIndex isoTest 5 (.daily 0 2 3)
      = some (isoTest (0 + ((5 / 2) * 86400000 : Nat) + ((5 % 2) * 3 * 60000 : Nat))) :=
  ⟨by decide, daily_batches_exact isoTest 0 2 3 5 (by decide)⟩

/-! ## Claim C8: Media Matcher -/

/-- C8 — The Media Matcher returns the file whose base name equals the
identifier exactly when one exists (regardless of where prefix matches sit in
the listing order); otherwise the first file, in listing order, whose base
name starts with the identifier — or `null`; and an I/O failure while listing
yields `null` rather than an error. -/
theorem findFileByBase_spec (folderPath baseName : String) (files : List String) :
    findFileByBase folderPath Option.none baseName = Option.none ∧
    ((∃ f ∈ files, parseName f = baseName) →
      ∃ g ∈ files, parseName g = baseName ∧
        findFileByBase folderPath (some files) baseName
          = some (pathJoin folderPath g)) ∧
    ((∀ f ∈ files, parseName f ≠ baseName) →
      findFileByBase folderPath (some files) baseName
        = (files.find? (fun f => strStartsWith (parseName f) baseName)).map
            (pathJoin folderPath)) := by
  refine ⟨rfl, ?_, ?_⟩
  · rintro ⟨f, hf, hpf⟩
    have hsome : (files.find? (fun f => parseName f == baseName)).isSome := by
      rw [List.find?_isSome]
      exact ⟨f, hf, by simp [hpf]⟩
    obtain ⟨g, hg⟩ := Option.isSome_iff_exists.mp hsome
    refine ⟨g, List.mem_of_find?_eq_some hg, ?_, ?_⟩
    · have := List.find?_some hg
      simpa using this
    · simp [findFileByBase, hg]
  · intro hnone
    have hfe : files.find? (fun f => parseName f == baseName) = Option.none := by
      rw [List.find?_eq_none]
      intro x hx
      simp [hnone x hx]
    cases hse : files.find? (fun f => strStartsWith (parseName f) baseName) with
    | none => simp [findFileByBase, hfe, hse]
    | some g => simp [findFileByBase, hfe, hse]

/-- Witness for C8: with listing `["ab.mp4", "a.mp4"]` and identifier `"a"`,
the exact match `a.mp4` is chosen even though the prefix match `ab.mp4`
comes first in the listing. -/
theorem findFileByBase_spec_witness :
    ∃ g ∈ ["ab.mp4", "a.mp4"], parseName g = "a" ∧
      findFileByBase "d" (some ["ab.mp4", "a.mp4"]) "a" = some (pathJoin "d" g) :=
  (findFileByBase_spec "d" "a" ["ab.mp4", "a.mp4"]).2.1 (by decide)

/-! ## Claim C1: failures consume no slot -/

/-- C1 — Under any scheduling policy other than `Immediate`: a row whose
publish call fails leaves the slot counter unchanged; over a whole run the
`publishAt` values handed to the successful (or simulated) rows are exactly
those of the consecutive slots starting at the initial counter — failures
introduce no gaps; and a row that publishes successfully right after a failed
row receives exactly the `publishAt` the failed row would have received. -/
theorem failed_rows_consume_no_slot (env : Env)
    (h : env.schedule.isScheduled = true) :
    (∀ (c : Nat) (re : RowEnv) (m : String),
      (processRow env c re).outcome = .failed m →
      (processRow env c re).countAfter = c) ∧
    (∀ (rows : List RowEnv) (c : Nat),
      countAfterRun env c rows = c + numSucc env c rows ∧
      successPublishAts (runRows env c rows)
        = (List.range' c (numSucc env c rows)).map
            (fun i => computePublishAtForIndex env.iso i env.schedule)) ∧
    (∀ (c : Nat) (reF reS : RowEnv) (m : String),
      (processRow env c reF).outcome = .failed m →
      (processRow env ((processRow env c reF).countAfter) reS).outcome.isSuccess = true →
      (processRow env ((processRow env c reF).countAfter) reS).publishAtUsed
        = (processRow env c reF).publishAtUsed) := by
  refine ⟨?_, run_slots env h, ?_⟩
  · intro c re m hm
    exact (processRow_failed env c re m hm).2.2
  · intro c reF reS m hm hs
    obtain ⟨-, hpaF, hcF⟩ := processRow_failed env c reF m hm
    rw [hcF] at hs ⊢
    rw [processRow_success_pA env c reS hs, hpaF]

/-- Witness for C1: fixed-interval schedule, a failing row at slot 0 followed
by a succeeding row, which receives the failed row's `publishAt`. -/
theorem failed_rows_consume_no_slot_witness :
    (processRow
        { idColIndex := 0, uploadedColIndex := 1, folderPath := "d",
          listing := some ["1.mp4"], doUpload := true,
          schedule := .start_interval 0 10, iso := isoTest }
        ((processRow
            { idColIndex := 0, uploadedColIndex := 1, folderPath := "d",
              listing := some ["1.mp4"], doUpload := true,
              schedule := .start_interval 0 10, iso := isoTest }
            0 (RowEnv.mk ["1"] (PubResult.err "quota") "T1")).countAfter)
        (RowEnv.mk ["1"] (PubResult.ok "vid") "T2")).publishAtUsed
      = (processRow
          { idColIndex := 0, uploadedColIndex := 1, folderPath := "d",
            listing := some ["1.mp4"], doUpload := true,
            schedule := .start_interval 0 10, iso := isoTest }
          0 (RowEnv.mk ["1"] (PubResult.err "quota") "T1")).publishAtUsed :=
  (failed_rows_consume_no_slot
      { idColIndex := 0, uploadedColIndex := 1, folderPath := "d",
        listing := some ["1.mp4"], doUpload := true,
        schedule := .start_interval 0 10, iso := isoTest }
      rfl).2.2 0 (RowEnv.mk ["1"] (PubResult.err "quota") "T1")
      (RowEnv.mk ["1"] (PubResult.ok "vid") "T2") "quota" (by decide) (by decide)

/-! ## Claim C6: blank identifiers are skipped without effect -/

/-- C6 — A row whose identifier cell is empty or whitespace-only gets outcome
`Skipped`, never enters the per-row machine (nothing written, publisher not
called, counter unchanged), and a run containing it decomposes into exactly
the run without it with the skipped result inserted: every later row's step —
in particular its `publishAt` — is as if the skipped row were absent. -/
theorem skipped_row_no_effect (env : Env) (c : Nat) (pre post : List RowEnv)
    (re : RowEnv) (h : strTrim (getCell re.cells env.idColIndex) = "") :
    (processRow env c re).outcome = .skipped ∧
    (processRow env c re).countAfter = c ∧
    (processRow env c re).write = Option.none ∧
    (processRow env c re).calledPublisher = false ∧
    runRows env c (pre ++ re :: post)
      = runRows env c pre
          ++ processRow env (countAfterRun env c pre) re
            :: runRows env (countAfterRun env c pre) post ∧
    runRows env c (pre ++ post)
      = runRows env c pre ++ runRows env (countAfterRun env c pre) post ∧
    countAfterRun env c (pre ++ re :: post) = countAfterRun env c (pre ++ post) := by
  have hskip := fun c' => processRow_skipped env c' re h
  refine ⟨by rw [hskip c], by rw [hskip c], by rw [hskip c], by rw [hskip c], ?_, ?_, ?_⟩
  · rw [runRows_append, runRows_cons, hskip (countAfterRun env c pre)]
  · rw [runRows_append]
  · rw [countAfterRun_append, countAfterRun_append, countAfterRun_cons,
      hskip (countAfterRun env c pre)]

/-- Witness for C6: a whitespace-identifier row between two real rows. -/
theorem skipped_row_no_effect_witness :
    (processRow
        { idColIndex := 0, uploadedColIndex := 1, folderPath := "d",
          listing := some ["1.mp4"], doUpload := true,
          schedule := .start_interval 0 10, iso := isoTest }
        0 (RowEnv.mk [" "] (PubResult.ok "v") "T")).outcome = .skipped ∧
    (processRow
        { idColIndex := 0, uploadedColIndex := 1, folderPath := "d",
          listing := some ["1.mp4"], doUpload := true,
          schedule := .start_interval 0 10, iso := isoTest }
        0 (RowEnv.mk [" "] (PubResult.ok "v") "T")).countAfter = 0 :=
  have h := skipped_row_no_effect
    { idColIndex := 0, uploadedColIndex := 1, folderPath := "d",
      listing := some ["1.mp4"], doUpload := true,
      schedule := .start_interval 0 10, iso := isoTest }
    0 [RowEnv.mk ["1"] (PubResult.ok "v") "T0"] [RowEnv.mk ["1"] (PubResult.ok "v") "T2"]
    (RowEnv.mk [" "] (PubResult.ok "v") "T") (by decide)
  ⟨h.1, h.2.1⟩

/-! ## Claim C4: simulation mode refines the all-success real run -/

/-- With uploading disabled, an iteration never invokes the publisher. -/
theorem processRow_sim_noPublisher (env : Env) (c : Nat) (re : RowEnv)
    (hup : env.doUpload = false) :
    (processRow env c re).calledPublisher = false := by
  by_cases h1 : strTrim (getCell re.cells env.idColIndex) = ""
  · simp [processRow, h1]
  · cases h2 : findFileByBase env.folderPath env.listing (strTrim (getCell re.cells env.idColIndex)) with
    | none => simp [processRow, h1, h2]
    | some vp => simp [processRow, h1, h2, hup]

/-- One iteration in simulation mode moves the counter and computes
`publishAt` exactly as the same iteration with uploading enabled and a
successful publish call. -/
theorem processRow_sim_agree (env : Env) (c : Nat) (re : RowEnv)
    (hok : re.pub.isOk = true) :
    (processRow { env with doUpload := false } c re).countAfter
      = (processRow { env with doUpload := true } c re).countAfter ∧
    (processRow { env with doUpload := false } c re).publishAtUsed
      = (processRow { env with doUpload := true } c re).publishAtUsed := by
  cases hp : re.pub with
  | err m => rw [hp] at hok; simp [PubResult.isOk] at hok
  | ok vid =>
    by_cases h1 : strTrim (getCell re.cells env.idColIndex) = ""
    · simp [processRow, h1]
    · cases h2 : findFileByBase env.folderPath env.listing (strTrim (getCell re.cells env.idColIndex)) with
      | none => simp [processRow, h1, h2]
      | some vp => simp [processRow, h1, h2, hp]

/-- The simulated run's counters and `publishAt` values coincide, row by row,
with those of the all-success enabled run. -/
theorem runRows_sim_agree (env : Env) :
    ∀ (rows : List RowEnv) (c : Nat), (∀ re ∈ rows, re.pub.isOk = true) →
      (runRows { env with doUpload := false } c rows).map StepResult.countAfter
        = (runRows { env with doUpload := true } c rows).map StepResult.countAfter ∧
      (runRows { env with doUpload := false } c rows).map StepResult.publishAtUsed
        = (runRows { env with doUpload := true } c rows).map StepResult.publishAtUsed := by
  intro rows
  induction rows with
  | nil => intro c _; simp [runRows]
  | cons re rest ih =>
    intro c hok
    have hre : re.pub.isOk = true := hok re (by simp)
    have hrest : ∀ r ∈ rest, r.pub.isOk = true := fun r hr => hok r (by simp [hr])
    obtain ⟨hca, hpa⟩ := processRow_sim_agree env c re hre
    simp only [runRows_cons, List.map_cons, hca, hpa]
    exact ⟨by rw [(ih _ hrest).1], by rw [(ih _ hrest).2]⟩

/-- In simulation mode the counter increments exactly for rows with a
non-blank identifier and a resolved media file, under an active schedule. -/
theorem processRow_sim_increment (env : Env) (hup : env.doUpload = false)
    (c : Nat) (re : RowEnv) :
    (processRow env c re).countAfter
      = if (strTrim (getCell re.cells env.idColIndex) ≠ ""
             ∧ (findFileByBase env.folderPath env.listing
                  (strTrim (getCell re.cells env.idColIndex))).isSome = true
             ∧ env.schedule.isScheduled = true)
        then c + 1 else c := by
  by_cases h1 : strTrim (getCell re.cells env.idColIndex) = ""
  · simp [processRow, h1]
  · cases h2 : findFileByBase env.folderPath env.listing (strTrim (getCell re.cells env.idColIndex)) with
    | none => simp [processRow, h1, h2]
    | some vp =>
      cases h3 : env.schedule.isScheduled with
      | false => simp [processRow, h1, h2, h3, hup]
      | true => simp [processRow, h1, h2, h3, hup]

/-- C4 — A simulated run never invokes the Publisher; after every row its
slot counter equals that of the corresponding enabled run where every publish
call succeeds; the counter increments exactly for rows with a resolved media
file under a non-Immediate schedule; and the simulated `publishAt` of each
row equals the one the real run would assign. -/
theorem simulation_refines_real (env : Env) (rows : List RowEnv) (c : Nat)
    (hok : ∀ re ∈ rows, re.pub.isOk = true) :
    (∀ s ∈ runRows { env with doUpload := false } c rows, s.calledPublisher = false) ∧
    (runRows { env with doUpload := false } c rows).map StepResult.countAfter
      = (runRows { env with doUpload := true } c rows).map StepResult.countAfter ∧
    (runRows { env with doUpload := false } c rows).map StepResult.publishAtUsed
      = (runRows { env with doUpload := true } c rows).map StepResult.publishAtUsed ∧
    (∀ (c' : Nat) (re : RowEnv),
      (processRow { env with doUpload := false } c' re).countAfter
        = if (strTrim (getCell re.cells env.idColIndex) ≠ ""
               ∧ (findFileByBase env.folderPath env.listing
                    (strTrim (getCell re.cells env.idColIndex))).isSome = true
               ∧ env.schedule.isScheduled = true)
          then c' + 1 else c') := by
  refine ⟨?_, (runRows_sim_agree env rows c hok).1, (runRows_sim_agree env rows c hok).2, ?_⟩
  · clear hok
    induction rows generalizing c with
    | nil => intro s hs; simp [runRows] at hs
    | cons re rest ih =>
      intro s hs
      rw [runRows_cons] at hs
      rcases List.mem_cons.mp hs with h | h
      · rw [h]; exact processRow_sim_noPublisher _ c re rfl
      · exact ih _ s h
  · intro c' re
    exact processRow_sim_increment { env with doUpload := false } rfl c' re

/-- Witness for C4: two real rows (one id missing a media file), all publish
calls succeeding. -/
theorem simulation_refines_real_witness :
    (runRows
        { idColIndex := 0, uploadedColIndex := 1, folderPath := "d",
          listing := some ["1.mp4"], doUpload := false,
          schedule := .start_interval 0 10, iso := isoTest }
        0 [RowEnv.mk ["1"] (PubResult.ok "v1") "T1",
           RowEnv.mk ["2"] (PubResult.ok "v2") "T2",
           RowEnv.mk ["1"] (PubResult.ok "v3") "T3"]).map StepResult.countAfter
      = (runRows
          { idColIndex := 0, uploadedColIndex := 1, folderPath := "d",
            listing := some ["1.mp4"], doUpload := true,
            schedule := .start_interval 0 10, iso := isoTest }
          0 [RowEnv.mk ["1"] (PubResult.ok "v1") "T1",
             RowEnv.mk ["2"] (PubResult.ok "v2") "T2",
             RowEnv.mk ["1"] (PubResult.ok "v3") "T3"]).map StepResult.countAfter :=
  (simulation_refines_real
      { idColIndex := 0, uploadedColIndex := 1, folderPath := "d",
        listing := some ["1.mp4"], doUpload := false,
        schedule := .start_interval 0 10, iso := isoTest }
      [RowEnv.mk ["1"] (PubResult.ok "v1") "T1",
       RowEnv.mk ["2"] (PubResult.ok "v2") "T2",
       RowEnv.mk ["1"] (PubResult.ok "v3") "T3"] 0 (by decide)).2.1

/-! ## Claim C7: status strings written per outcome -/

/-- C7 (amended) — Every processed row's step writes into its status cell the
single descriptive string determined by its terminal outcome — except
`Skipped`: a skipped row's outcome is logged to the console only, and its
status cell is left untouched. -/
theorem write_matches_outcome (env : Env) (c : Nat) (re : RowEnv) :
    (processRow env c re).write = expectedWrite (processRow env c re).outcome := by
  by_cases h1 : strTrim (getCell re.cells env.idColIndex) = ""
  · simp [processRow, h1, expectedWrite]
  · cases h2 : findFileByBase env.folderPath env.listing (strTrim (getCell re.cells env.idColIndex)) with
    | none => simp [processRow, h1, h2, expectedWrite]
    | some vp =>
      cases h3 : env.doUpload with
      | false => simp [processRow, h1, h2, h3, expectedWrite]
      | true =>
        cases h4 : re.pub with
        | ok vid => simp [processRow, h1, h2, h3, h4, expectedWrite]
        | err m => simp [processRow, h1, h2, h3, h4, expectedWrite]

/-- Counterexample to C7 as stated: a row with a whitespace-only identifier
is classified `Skipped`, yet nothing is written into its status cell and the
row is left byte-for-byte unchanged. -/
theorem skipped_outcome_not_recorded :
    (processRow
        { idColIndex := 0, uploadedColIndex := 1, folderPath := "d",
          listing := some ["1.mp4"], doUpload := true,
          schedule := .start_interval 0 10, iso := isoTest }
        0 (RowEnv.mk [" "] (PubResult.ok "v") "T")).outcome = .skipped ∧
    (processRow
        { idColIndex := 0, uploadedColIndex := 1, folderPath := "d",
          listing := some ["1.mp4"], doUpload := true,
          schedule := .start_interval 0 10, iso := isoTest }
        0 (RowEnv.mk [" "] (PubResult.ok "v") "T")).write = Option.none ∧
    (processRow
        { idColIndex := 0, uploadedColIndex := 1, folderPath := "d",
          listing := some ["1.mp4"], doUpload := true,
          schedule := .start_interval 0 10, iso := isoTest }
        0 (RowEnv.mk [" "] (PubResult.ok "v") "T")).newRow = [" "] := by
  refine ⟨?_, ?_, ?_⟩ <;> decide

/-! ## Claim C10: the MissingFile / Failed status formats -/

theorem listContains_cons_ne (c : Char) (cs ps : List Char) (p : Char)
    (h : (p == c) = false) :
    listContains (c :: cs) (p :: ps) = listContains cs (p :: ps) := by
  simp [listContains, listStartsWith, h]

/-- Scanning for a nonempty pattern may skip any leading characters the
pattern's first character never matches. -/
theorem listContains_append_skip (pre m : List Char) (p : Char) (ps : List Char)
    (h : ∀ c ∈ pre, (p == c) = false) :
    listContains (pre ++ m) (p :: ps) = listContains m (p :: ps) := by
  induction pre with
  | nil => rfl
  | cons a as ih =>
    rw [List.cons_append, listContains_cons_ne a (as ++ m) ps p (h a (by simp))]
    exact ih (fun c hc => h c (by simp [hc]))

theorem containsIso_cons_nondigit (c : Char) (cs : List Char)
    (h : c.isDigit = false) :
    containsIso (c :: cs) = containsIso cs := by
  simp [containsIso, isoShape, matchesShape, h]

/-- An ISO timestamp starts with a digit, so scanning may skip any leading
non-digit characters. -/
theorem containsIso_append_nondigit (pre m : List Char)
    (h : ∀ c ∈ pre, c.isDigit = false) :
    containsIso (pre ++ m) = containsIso m := by
  induction pre with
  | nil => rfl
  | cons a as ih =>
    rw [List.cons_append, containsIso_cons_nondigit a (as ++ m) (h a (by simp))]
    exact ih (fun c hc => h c (by simp [hc]))

/-- The `"ERROR: "` preamble neither contains nor starts `"publishAt:"`. -/
theorem error_status_publishAt (m : String) :
    containsSubstr ("ERROR: " ++ m) "publishAt:" = containsSubstr m "publishAt:" := by
  show listContains (("ERROR: " ++ m)).data _ = _
  rw [String.data_append]
  rw [show "publishAt:".data
        = 'p' :: 'u' :: 'b' :: 'l' :: 'i' :: 's' :: 'h' :: 'A' :: 't' :: ':' :: [] from rfl]
  exact listContains_append_skip "ERROR: ".data m.data 'p' _ (by decide)

/-- The `"ERROR: "` preamble has no digits, so it cannot contain or start an
ISO timestamp. -/
theorem error_status_iso (m : String) :
    containsIso ("ERROR: " ++ m).data = containsIso m.data := by
  rw [String.data_append]
  exact containsIso_append_nondigit "ERROR: ".data m.data (by decide)

/-- C10 (amended) — A row without a resolved media file gets exactly
`MISSING FILE` in its status cell, and a row whose publish call fails gets
exactly `ERROR: ` followed by the error message; neither format appends an
ISO-8601 timestamp or a `publishAt:` field of its own — the `Failed` status
contains such text exactly when the publisher's error message itself does. -/
theorem missing_failed_status_format (env : Env) (c : Nat) (re : RowEnv) (m : String) :
    ((processRow env c re).outcome = .missingFile →
      (processRow env c re).write = some "MISSING FILE" ∧
      containsSubstr "MISSING FILE" "publishAt:" = false ∧
      containsIso "MISSING FILE".data = false) ∧
    ((processRow env c re).outcome = .failed m →
      (processRow env c re).write = some ("ERROR: " ++ m) ∧
      containsSubstr ("ERROR: " ++ m) "publishAt:" = containsSubstr m "publishAt:" ∧
      containsIso ("ERROR: " ++ m).data = containsIso m.data) := by
  constructor
  · intro hm
    refine ⟨?_, by decide, by decide⟩
    rw [write_matches_outcome, hm]
    rfl
  · intro hm
    exact ⟨(processRow_failed env c re m hm).1, error_status_publishAt m, error_status_iso m⟩

/-- Witness for C10: a missing-file row, and a failed row whose message is
plain text. -/
theorem missing_failed_status_format_witness :
    ((processRow
        { idColIndex := 0, uploadedColIndex := 1, folderPath := "d",
          listing := some ["1.mp4"], doUpload := true,
          schedule := .start_interval 0 10, iso := isoTest }
        0 (RowEnv.mk ["2"] (PubResult.ok "v") "T")).write = some "MISSING FILE" ∧
      containsSubstr "MISSING FILE" "publishAt:" = false ∧
      containsIso "MISSING FILE".data = false) ∧
    ((processRow
        { idColIndex := 0, uploadedColIndex := 1, folderPath := "d",
          listing := some ["1.mp4"], doUpload := true,
          schedule := .start_interval 0 10, iso := isoTest }
        0 (RowEnv.mk ["1"] (PubResult.err "quota exceeded") "T")).write
        = some ("ERROR: " ++ "quota exceeded") ∧
      containsSubstr ("ERROR: " ++ "quota exceeded") "publishAt:"
        = containsSubstr "quota exceeded" "publishAt:" ∧
      containsIso ("ERROR: " ++ "quota exceeded").data
        = containsIso "quota exceeded".data) :=
  ⟨(missing_failed_status_format
      { idColIndex := 0, uploadedColIndex := 1, folderPath := "d",
        listing := some ["1.mp4"], doUpload := true,
        schedule := .start_interval 0 10, iso := isoTest }
      0 (RowEnv.mk ["2"] (PubResult.ok "v") "T") "?").1 (by decide),
   (missing_failed_status_format
      { idColIndex := 0, uploadedColIndex := 1, folderPath := "d",
        listing := some ["1.mp4"], doUpload := true,
        schedule := .start_interval 0 10, iso := isoTest }
      0 (RowEnv.mk ["1"] (PubResult.err "quota exceeded") "T") "quota exceeded").2 (by decide)⟩

/-- Counterexample to C10 as stated: when the publisher's error message
itself contains `publishAt:` (and an ISO timestamp), so does the written
`ERROR:` status string. -/
theorem failed_status_can_contain_publishAt :
    (processRow
        { idColIndex := 0, uploadedColIndex := 1, folderPath := "d",
          listing := some ["1.mp4"], doUpload := true,
          schedule := .start_interval 0 10, iso := isoTest }
        0 (RowEnv.mk ["1"]
            (PubResult.err "invalid publishAt: 2025-01-01T00:00:00.000Z") "T")).write
      = some "ERROR: invalid publishAt: 2025-01-01T00:00:00.000Z" ∧
    containsSubstr "ERROR: invalid publishAt: 2025-01-01T00:00:00.000Z" "publishAt:" = true ∧
    containsIso "ERROR: invalid publishAt: 2025-01-01T00:00:00.000Z".data = true := by
  refine ⟨?_, ?_, ?_⟩ <;> decide

/-! ## Claim C9: Header Resolver idempotence -/

/-- Appending one element the predicate rejects does not change `findIdx?`. -/
theorem findIdx?_append_single (hs : List String) (g : String → Bool) (x : String)
    (hx : g x = false) :
    (hs ++ [x]).findIdx? g = hs.findIdx? g := by
  rw [List.findIdx?_append]
  simp [List.findIdx?_cons, hx]

/-- Counterexample to C9 as stated: with user identifier label `Uploaded` and
header `["id"]`, the first resolution finds the identifier column by
substring fallback at position 0 and appends the status column `Uploaded`;
resolving the produced header again finds the identifier column by exact
match at position 1 — a different `FieldIndex`. -/
theorem header_resolution_not_idempotent :
    (resolveHeader ["id"] "Uploaded").map (fun p => p.1.idColIndex) = some 0 ∧
    ((resolveHeader ["id"] "Uploaded").bind
        (fun p => (resolveHeader p.2 "Uploaded").map (fun q => q.1.idColIndex)))
      = some 1 := by
  refine ⟨?_, ?_⟩ <;> decide

/-- C9 (amended) — Header resolution is idempotent provided the normalized
user-supplied identifier label is not `uploaded` (the normalized name of the
status column the resolver may append): resolving the header produced by a
successful first resolution yields the same `FieldIndex` — every semantic
field, the identifier column and the status column at the same positions —
and performs no second structural mutation of the header row. -/
theorem header_resolution_idempotent (header : List String) (idLabel : String)
    (fi : FieldIndex) (header' : List String)
    (hlabel : normalizeHeader idLabel ≠ "uploaded")
    (h : resolveHeader header idLabel = some (fi, header')) :
    resolveHeader header' idLabel = some (fi, header') := by
  have hxlabel : ((fun s => s == normalizeHeader idLabel) "uploaded") = false := by
    simp only [beq_eq_false_iff_ne]
    exact fun e => hlabel e.symm
  unfold resolveHeader at h
  cases hid : resolveIdColIndex header idLabel with
  | none => rw [hid] at h; exact absurd h (by simp)
  | some idCol =>
    rw [hid] at h
    simp only [] at h
    cases hup : (header.map normalizeHeader).findIdx?
        (fun s => s == "uploaded" || s == "已上傳") with
    | some up =>
      rw [hup] at h
      simp only [Option.some.injEq, Prod.mk.injEq] at h
      obtain ⟨hfi, hh⟩ := h
      subst hh
      subst hfi
      unfold resolveHeader
      simp only []
      rw [hid, hup]
    | none =>
      rw [hup] at h
      simp only [Option.some.injEq, Prod.mk.injEq] at h
      obtain ⟨hfi, hh⟩ := h
      subst hh
      subst hfi
      have hULow : normalizeHeader "Uploaded" = "uploaded" := by decide
      have hmap : (header ++ ["Uploaded"]).map normalizeHeader
          = header.map normalizeHeader ++ ["uploaded"] := by
        rw [List.map_append]
        simp [hULow]
      have hid' : resolveIdColIndex (header ++ ["Uploaded"]) idLabel = some idCol := by
        unfold resolveIdColIndex at hid ⊢
        simp only [] at hid ⊢
        rw [hmap,
          findIdx?_append_single (header.map normalizeHeader)
            (fun s => s == normalizeHeader idLabel) "uploaded" hxlabel]
        cases he : (header.map normalizeHeader).findIdx?
            (fun s => s == normalizeHeader idLabel) with
        | some i => rw [he] at hid; exact hid
        | none =>
          rw [he] at hid
          rw [findIdx?_append_single (header.map normalizeHeader)
            (fun s => containsSubstr s "編號" || containsSubstr s "id") "uploaded" (by decide)]
          exact hid
      have hup' : ((header ++ ["Uploaded"]).map normalizeHeader).findIdx?
          (fun s => s == "uploaded" || s == "已上傳") = some header.length := by
        rw [hmap, List.findIdx?_append, hup]
        simp [List.findIdx?_cons]
      have hfind : ∀ k : String, ((fun s => s == k) "uploaded") = false →
          ((header ++ ["Uploaded"]).map normalizeHeader).findIdx? (fun s => s == k)
            = (header.map normalizeHeader).findIdx? (fun s => s == k) := by
        intro k hk
        rw [hmap]
        exact findIdx?_append_single _ _ _ hk
      unfold resolveHeader
      simp only []
      rw [hid', hup']
      rw [hfind "seo_title_zh" (by decide), hfind "seo_title_en" (by decide),
        hfind "description_zh" (by decide), hfind "description_en" (by decide),
        hfind "yt_tags" (by decide), hfind "hashtags" (by decide)]

/-- Witness for C9 (amended): header `["ID"]` with identifier label `編號`;
the first resolution appends `Uploaded`, the second reproduces it exactly. -/
theorem header_resolution_idempotent_witness :
    resolveHeader ["ID", "Uploaded"] "編號"
      = some ({ seo_title_zh := Option.none, seo_title_en := Option.none,
                description_zh := Option.none, description_en := Option.none,
                yt_tags := Option.none, hashtags := Option.none,
                idColIndex := 0, uploadedColIndex := 1 }, ["ID", "Uploaded"]) :=
  header_resolution_idempotent ["ID"] "編號"
    { seo_title_zh := Option.none, seo_title_en := Option.none,
      description_zh := Option.none, description_en := Option.none,
      yt_tags := Option.none, hashtags := Option.none,
      idColIndex := 0, uploadedColIndex := 1 }
    ["ID", "Uploaded"] (by decide) (by decide)

/-! ## Claim C5: missing identifier column aborts the run -/

/-- C5 — When the header row has no identifier column — no exact match on the
normalized user-supplied label and no header cell containing `編號` or `id` —
the run aborts before processing any row: zero rows are processed, no status
cell is written, and nothing is flushed to persistent storage. -/
theorem missing_id_column_fatal
    (idLabel folderPath : String) (listing : Option (List String))
    (doUpload : Bool) (schedule : ScheduleOptions) (iso : Int → String)
    (pub : Nat → PubResult) (now : Nat → String)
    (header : List String) (dataRows : List (List String))
    (hexact : (header.map normalizeHeader).findIdx?
        (fun s => s == normalizeHeader idLabel) = Option.none)
    (hsub : (header.map normalizeHeader).findIdx?
        (fun s => containsSubstr s "編號" || containsSubstr s "id") = Option.none) :
    mainRun idLabel folderPath listing doUpload schedule iso pub now
        (header :: dataRows) = .noIdColumn ∧
    (mainRun idLabel folderPath listing doUpload schedule iso pub now
        (header :: dataRows)).flushedSheet = Option.none ∧
    (mainRun idLabel folderPath listing doUpload schedule iso pub now
        (header :: dataRows)).processed = [] := by
  have hid : resolveIdColIndex header idLabel = Option.none := by
    unfold resolveIdColIndex
    simp only []
    rw [hexact]
    exact hsub
  have hrh : resolveHeader header idLabel = Option.none := by
    unfold resolveHeader
    simp only []
    rw [hid]
  refine ⟨?_, ?_, ?_⟩ <;>
    simp [mainRun, hrh, MainResult.flushedSheet, MainResult.processed]

/-- Witness for C5: header `["foo"]` has no identifier column for label `編號`. -/
theorem missing_id_column_fatal_witness :
    mainRun "編號" "d" (some ["1.mp4"]) true (.start_interval 0 10) isoTest
        (fun _ => PubResult.ok "v") (fun _ => "T") (["foo"] :: [["1", "a"]])
      = .noIdColumn ∧
    (mainRun "編號" "d" (some ["1.mp4"]) true (.start_interval 0 10) isoTest
        (fun _ => PubResult.ok "v") (fun _ => "T") (["foo"] :: [["1", "a"]])).flushedSheet
      = Option.none ∧
    (mainRun "編號" "d" (some ["1.mp4"]) true (.start_interval 0 10) isoTest
        (fun _ => PubResult.ok "v") (fun _ => "T") (["foo"] :: [["1", "a"]])).processed
      = [] :=
  missing_id_column_fatal "編號" "d" (some ["1.mp4"]) true (.start_interval 0 10) isoTest
    (fun _ => PubResult.ok "v") (fun _ => "T") ["foo"] [["1", "a"]]
    (by decide) (by decide)
